import Mathlib

/-!
Shallow embedding of the vocabulary-database data-access layer
(`src/unnamed/part_000`, a Firestore CRUD module).

The remote document store is modelled as explicit lists of path-addressed
documents; the process-local caches (`wordCache`, `posTagCache`) are
association lists inside the same state.  `Timestamp.now()` is modelled by a
clock trace `trace : Nat → Int` together with a read counter `tick`: each
call to `now` returns `trace tick` and advances the counter.  Firestore's
client-generated document ids are modelled by a counter `nextId` and the
injective generator `genId`.  `updateDoc` (and `batch.update`) fail when the
target document is absent; fallible operations return `Option DB` with
`none` meaning the thrown store error (state unchanged, as the code never
commits partial batches and throws before its cache writes).
-/

set_option linter.all false

namespace VocabDB

/-- Optional nested `relatedWords` object of a `Word`
(`relatedWords?: { same?: string; opposite?: string }`). -/
structure RelatedWords where
  same : Option String
  opposite : Option String
deriving DecidableEq

/-- The caller-supplied part of a `Word`:
`Omit<Word, "id" | "createdAt" | "wordbookId" | "reviewDate" | "studyCount">`. -/
structure WordInput where
  word : String
  pinyin : String
  favorite : Bool
  translation : String
  partOfSpeech : List String
  exampleSentence : String
  exampleTranslation : String
  relatedWords : Option RelatedWords
  usageFrequency : Int
  mastery : Int
  note : String
deriving DecidableEq

/-- The `Word` interface: a full word record as returned to callers.
`reviewDate?: Timestamp | null` is `Option (Option Int)` (absent / null /
timestamp) and `studyCount?: number` is `Option Int` (absent / value). -/
structure Word extends WordInput where
  wordbookId : String
  createdAt : Int
  reviewDate : Option (Option Int)
  studyCount : Option Int
  id : String
deriving DecidableEq

/-- A word document as stored: the same fields, except that the `id` field is
only present when some writer stored one (`bulkImportWords` stores the whole
record including `id`; `createWord` stores no `id` field). -/
structure WordDoc extends WordInput where
  wordbookId : String
  createdAt : Int
  reviewDate : Option (Option Int)
  studyCount : Option Int
  storedId : Option String
deriving DecidableEq

/-- The `Wordbook` interface minus `id`: what a wordbook document stores.
`trashed?: boolean` is `Option Bool` (absent / false / true),
`trashedAt?: Timestamp | null` is `Option (Option Int)`. -/
structure WordbookDoc where
  name : String
  userId : String
  createdAt : Int
  trashed : Option Bool
  trashedAt : Option (Option Int)
deriving DecidableEq

/-- The `Wordbook` interface: a wordbook record as returned to callers. -/
structure Wordbook extends WordbookDoc where
  id : String
deriving DecidableEq

/-- The `PartOfSpeechTag` interface. -/
structure PartOfSpeechTag where
  id : String
  name : String
  color : String
  userId : String
deriving DecidableEq

/-- A part-of-speech tag document as stored (`createPartOfSpeechTag` never
stores an `id` field, but `updatePartOfSpeechTag` with `Partial<PartOfSpeechTag>`
could write one, so the stored `id` field is kept as `storedId`). -/
structure TagDoc where
  storedId : Option String
  name : String
  color : String
  userId : String
deriving DecidableEq

/-- `Omit<PartOfSpeechTag, "id" | "userId">`: caller input to tag creation. -/
structure TagInput where
  name : String
  color : String
deriving DecidableEq

/-- `Partial<Word>`: every field optional; an absent field is not touched by
`updateDoc` / object spread. -/
structure PartialWord where
  id : Option String
  word : Option String
  pinyin : Option String
  favorite : Option Bool
  translation : Option String
  partOfSpeech : Option (List String)
  exampleSentence : Option String
  exampleTranslation : Option String
  relatedWords : Option RelatedWords
  usageFrequency : Option Int
  mastery : Option Int
  note : Option String
  wordbookId : Option String
  createdAt : Option Int
  reviewDate : Option (Option Int)
  studyCount : Option Int
deriving DecidableEq

/-- `Partial<PartOfSpeechTag>`. -/
structure PartialTag where
  id : Option String
  name : Option String
  color : Option String
  userId : Option String
deriving DecidableEq

/-- The whole observable state: the remote store's three document
collections (path components made explicit), the two process-local caches,
the id generator and the clock. -/
structure DB where
  /-- documents at `users/{userId}/wordbooks/{wbId}` -/
  wordbooks : List (String × String × WordbookDoc)
  /-- documents at `users/{userId}/wordbooks/{wbId}/words/{wordId}` -/
  words : List (String × String × String × WordDoc)
  /-- documents at `users/{userId}/posTags/{tagId}` -/
  posTags : List (String × String × TagDoc)
  /-- `const wordCache: Record<string, Word[]> = {}` -/
  wordCache : List (String × List Word)
  /-- `const posTagCache: Record<string, PartOfSpeechTag[]> = {}` -/
  posTagCache : List (String × List PartOfSpeechTag)
  /-- generator state for client-side document ids -/
  nextId : Nat
  /-- number of `Timestamp.now()` calls made so far -/
  tick : Nat
  /-- the clock trace: the value returned by the n-th `Timestamp.now()` -/
  trace : Nat → Int

/-- Client-side generated document id (injective in the counter). -/
def genId (n : Nat) : String :=
  String.mk (List.replicate (n + 1) 'd')

/-- `Timestamp.now()`: read the clock trace and advance the read counter. -/
def now (s : DB) : Int × DB :=
  (s.trace s.tick, { s with tick := s.tick + 1 })

/-- Generate a fresh client-side document id (`addDoc` / `doc(colRef)`). -/
def freshId (s : DB) : String × DB :=
  (genId s.nextId, { s with nextId := s.nextId + 1 })

/-- JavaScript truthiness of an optional boolean field. -/
def truthy (o : Option Bool) : Bool :=
  o.getD false

/-- `` makeCacheKey = (userId, wordbookId) => `${userId}_${wordbookId}` `` -/
def makeCacheKey (userId wordbookId : String) : String :=
  userId ++ "_" ++ wordbookId

/-- Record-object lookup (`cache[key]`). -/
def cacheGet {α : Type} (c : List (String × α)) (k : String) : Option α :=
  (c.find? (fun kv => kv.1 == k)).map (fun kv => kv.2)

/-- Record-object assignment (`cache[key] = v`): updates in place when the
key exists, appends otherwise. -/
def cacheSet {α : Type} (c : List (String × α)) (k : String) (v : α) : List (String × α) :=
  if (c.find? (fun kv => kv.1 == k)).isSome then
    c.map (fun kv => if kv.1 == k then (k, v) else kv)
  else
    c ++ [(k, v)]

/-- The snapshot of `getDocs(collection(db, "users", u, "wordbooks"))`:
the user's wordbook documents with their ids, in store order. -/
def wbEntries (s : DB) (u : String) : List (String × WordbookDoc) :=
  s.wordbooks.filterMap (fun e => if e.1 == u then some (e.2.1, e.2.2) else none)

/-- The snapshot of the `words` subcollection of one wordbook. -/
def wordEntries (s : DB) (u wbId : String) : List (String × WordDoc) :=
  s.words.filterMap (fun e =>
    if e.1 == u && e.2.1 == wbId then some (e.2.2.1, e.2.2.2) else none)

/-- The snapshot of `getDocs(collection(db, "users", u, "posTags"))`. -/
def tagEntries (s : DB) (u : String) : List (String × TagDoc) :=
  s.posTags.filterMap (fun e => if e.1 == u then some (e.2.1, e.2.2) else none)

/-- Does a wordbook document exist at `users/{u}/wordbooks/{i}`? -/
def existsWordbookDoc (s : DB) (u i : String) : Bool :=
  s.wordbooks.any (fun e => e.1 == u && e.2.1 == i)

/-- Does a word document exist at `users/{u}/wordbooks/{w}/words/{i}`? -/
def existsWordDoc (s : DB) (u w i : String) : Bool :=
  s.words.any (fun e => e.1 == u && e.2.1 == w && e.2.2.1 == i)

/-- Does a tag document exist at `users/{u}/posTags/{i}`? -/
def existsTagDoc (s : DB) (u i : String) : Bool :=
  s.posTags.any (fun e => e.1 == u && e.2.1 == i)

/-- The word record built by a collection read:
`{ id: docSnap.id, ...docSnap.data() }` — a stored `id` field (spread last)
overrides the document key. -/
def wordOfDoc (key : String) (d : WordDoc) : Word :=
  { toWordInput := d.toWordInput
    wordbookId := d.wordbookId
    createdAt := d.createdAt
    reviewDate := d.reviewDate
    studyCount := d.studyCount
    id := d.storedId.getD key }

/-- `getWordbooksByUserId`: all documents of the user's `wordbooks`
collection whose `trashed` field is not truthy (`if (!data.trashed)`),
as records `{ id: docSnap.id, ...data }`. -/
def getWordbooksByUserId (s : DB) (u : String) : List Wordbook :=
  (wbEntries s u).filterMap (fun e =>
    if truthy e.2.trashed then none else some { toWordbookDoc := e.2, id := e.1 })

/-- `createWordbook`: `addDoc` of `{name, userId, createdAt: Timestamp.now(),
trashed: false, trashedAt: null}`, then a record rebuilt with a second
`Timestamp.now()` is returned. -/
def createWordbook (s : DB) (u name : String) : Wordbook × DB :=
  let p := now s
  let q := freshId p.2
  let d : WordbookDoc :=
    { name := name, userId := u, createdAt := p.1
      trashed := some false, trashedAt := some none }
  let s2 := { q.2 with wordbooks := q.2.wordbooks ++ [(u, q.1, d)] }
  let p2 := now s2
  ({ name := name, userId := u, createdAt := p2.1
     trashed := some false, trashedAt := some none, id := q.1 }, p2.2)

/-- `deleteWordbook`: reads the `words` subcollection, deletes each word
document individually, then deletes the wordbook document.  The word cache
is not touched. -/
def deleteWordbook (s : DB) (u wbId : String) : DB :=
  { s with
    words := s.words.filter (fun e => !(e.1 == u && e.2.1 == wbId))
    wordbooks := s.wordbooks.filter (fun e => !(e.1 == u && e.2.1 == wbId)) }

/-- `trashWordbook`: `updateDoc(docRef, { trashed: true, trashedAt:
Timestamp.now() })`; fails (throws) when the document is absent. -/
def trashWordbook (s : DB) (u wbId : String) : Option DB :=
  let p := now s
  if existsWordbookDoc p.2 u wbId then
    some { p.2 with
      wordbooks := p.2.wordbooks.map (fun e =>
        if e.1 == u && e.2.1 == wbId then
          (e.1, e.2.1, { e.2.2 with trashed := some true, trashedAt := some (some p.1) })
        else e) }
  else none

/-- `getTrashedWordbooksByUserId`: documents whose `trashed` field is truthy
(`if (data.trashed)`). -/
def getTrashedWordbooksByUserId (s : DB) (u : String) : List Wordbook :=
  (wbEntries s u).filterMap (fun e =>
    if truthy e.2.trashed then some { toWordbookDoc := e.2, id := e.1 } else none)

/-- `clearTrashedWordbooks`: `deleteWordbook` for every trashed wordbook of
the user (the `Promise.all` over independent documents is sequentialised). -/
def clearTrashedWordbooks (s : DB) (u : String) : DB :=
  (getTrashedWordbooksByUserId s u).foldl (fun st wb => deleteWordbook st u wb.id) s

/-- `updateWordbookName`: `updateDoc(wordbookRef, { name: newName })`;
fails when the document is absent. -/
def updateWordbookName (s : DB) (u wbId newName : String) : Option DB :=
  if existsWordbookDoc s u wbId then
    some { s with
      wordbooks := s.wordbooks.map (fun e =>
        if e.1 == u && e.2.1 == wbId then (e.1, e.2.1, { e.2.2 with name := newName })
        else e) }
  else none

/-- `getWordbook`: `getDoc` of a single document; `null` when it does not
exist, else `{ id: snap.id, ...data }`. -/
def getWordbook (s : DB) (u wbId : String) : Option Wordbook :=
  match s.wordbooks.find? (fun e => e.1 == u && e.2.1 == wbId) with
  | none => none
  | some e => some { toWordbookDoc := e.2.2, id := e.2.1 }

/-- `getWordsByWordbookId`: cache-first; on a cache hit the cached list is
returned with no store access, otherwise the subcollection is read, cached
and returned. -/
def getWordsByWordbookId (s : DB) (u wbId : String) : List Word × DB :=
  let key := makeCacheKey u wbId
  match cacheGet s.wordCache key with
  | some ws => (ws, s)
  | none =>
    let ws := (wordEntries s u wbId).map (fun e => wordOfDoc e.1 e.2)
    (ws, { s with wordCache := cacheSet s.wordCache key ws })

/-- `createWord`: `addDoc` of the input plus `wordbookId`,
`createdAt: Timestamp.now()`, `reviewDate: null`, `studyCount: 0` (no `id`
field stored); the returned record is rebuilt with a second
`Timestamp.now()` and pushed onto the cache entry when one exists. -/
def createWord (s : DB) (u wbId : String) (wordData : WordInput) : Word × DB :=
  let p := now s
  let q := freshId p.2
  let d : WordDoc :=
    { toWordInput := wordData, wordbookId := wbId, createdAt := p.1
      reviewDate := some none, studyCount := some 0, storedId := none }
  let s2 := { q.2 with words := q.2.words ++ [(u, wbId, q.1, d)] }
  let p2 := now s2
  let newWord : Word :=
    { toWordInput := wordData, wordbookId := wbId, createdAt := p2.1
      reviewDate := some none, studyCount := some 0, id := q.1 }
  let key := makeCacheKey u wbId
  let s3 :=
    match cacheGet p2.2.wordCache key with
    | some ws => { p2.2 with wordCache := cacheSet p2.2.wordCache key (ws ++ [newWord]) }
    | none => p2.2
  (newWord, s3)

/-- Merge of a present-or-absent partial field (`updateDoc` / spread). -/
def mergeOpt {α : Type} (p d : Option α) : Option α :=
  match p with
  | some v => some v
  | none => d

/-- `updateDoc(ref, updateData)` applied to a stored word document: every
field present in the partial record overwrites the stored field. -/
def mergeWordDoc (d : WordDoc) (p : PartialWord) : WordDoc :=
  { word := p.word.getD d.word
    pinyin := p.pinyin.getD d.pinyin
    favorite := p.favorite.getD d.favorite
    translation := p.translation.getD d.translation
    partOfSpeech := p.partOfSpeech.getD d.partOfSpeech
    exampleSentence := p.exampleSentence.getD d.exampleSentence
    exampleTranslation := p.exampleTranslation.getD d.exampleTranslation
    relatedWords := mergeOpt p.relatedWords d.relatedWords
    usageFrequency := p.usageFrequency.getD d.usageFrequency
    mastery := p.mastery.getD d.mastery
    note := p.note.getD d.note
    wordbookId := p.wordbookId.getD d.wordbookId
    createdAt := p.createdAt.getD d.createdAt
    reviewDate := mergeOpt p.reviewDate d.reviewDate
    studyCount := mergeOpt p.studyCount d.studyCount
    storedId := mergeOpt p.id d.storedId }

/-- `{ ...w, ...updateData }` applied to a cached word record. -/
def mergeWord (w : Word) (p : PartialWord) : Word :=
  { word := p.word.getD w.word
    pinyin := p.pinyin.getD w.pinyin
    favorite := p.favorite.getD w.favorite
    translation := p.translation.getD w.translation
    partOfSpeech := p.partOfSpeech.getD w.partOfSpeech
    exampleSentence := p.exampleSentence.getD w.exampleSentence
    exampleTranslation := p.exampleTranslation.getD w.exampleTranslation
    relatedWords := mergeOpt p.relatedWords w.relatedWords
    usageFrequency := p.usageFrequency.getD w.usageFrequency
    mastery := p.mastery.getD w.mastery
    note := p.note.getD w.note
    wordbookId := p.wordbookId.getD w.wordbookId
    createdAt := p.createdAt.getD w.createdAt
    reviewDate := mergeOpt p.reviewDate w.reviewDate
    studyCount := mergeOpt p.studyCount w.studyCount
    id := p.id.getD w.id }

/-- `updateWord`: `updateDoc` of the partial record (fails when the document
is absent), then the cache entry, when present, is rewritten with the merge
applied client-side. -/
def updateWord (s : DB) (u wbId wordId : String) (updateData : PartialWord) : Option DB :=
  if existsWordDoc s u wbId wordId then
    let s1 := { s with
      words := s.words.map (fun e =>
        if e.1 == u && e.2.1 == wbId && e.2.2.1 == wordId then
          (e.1, e.2.1, e.2.2.1, mergeWordDoc e.2.2.2 updateData)
        else e) }
    let key := makeCacheKey u wbId
    some (match cacheGet s1.wordCache key with
      | some ws =>
        let ws' := ws.map (fun w => if w.id == wordId then mergeWord w updateData else w)
        { s1 with wordCache := cacheSet s1.wordCache key ws' }
      | none => s1)
  else none

/-- `deleteWord`: `deleteDoc` then, when the cache entry exists, the entry
is filtered by id. -/
def deleteWord (s : DB) (u wbId wordId : String) : DB :=
  let s1 := { s with
    words := s.words.filter (fun e =>
      !(e.1 == u && e.2.1 == wbId && e.2.2.1 == wordId)) }
  let key := makeCacheKey u wbId
  match cacheGet s1.wordCache key with
  | some ws =>
    { s1 with wordCache := cacheSet s1.wordCache key (ws.filter (fun w => w.id != wordId)) }
  | none => s1

/-- The word record built inside `bulkImportWords` for one input item:
`{ id: docRef.id, ...d, wordbookId, createdAt, reviewDate: null,
studyCount: 0 }`. -/
def mkNewWord (wbId : String) (createdAt : Int) (i : String) (d : WordInput) : Word :=
  { toWordInput := d, wordbookId := wbId, createdAt := createdAt
    reviewDate := some none, studyCount := some 0, id := i }

/-- The stored form of a word written by `batch.set(docRef, word)`: the whole
record, `id` field included. -/
def docOfWord (w : Word) : WordDoc :=
  { toWordInput := w.toWordInput, wordbookId := w.wordbookId
    createdAt := w.createdAt, reviewDate := w.reviewDate
    studyCount := w.studyCount, storedId := some w.id }

/-- `batch.set` at a word path: replaces any document at that path. -/
def batchSetWord (ws : List (String × String × String × WordDoc))
    (u wbId i : String) (d : WordDoc) : List (String × String × String × WordDoc) :=
  ws.filter (fun e => !(e.1 == u && e.2.1 == wbId && e.2.2.1 == i)) ++ [(u, wbId, i, d)]

/-- The `data.forEach` loop of `bulkImportWords`: one fresh client id per
item, every record stamped with the one shared `createdAt`. -/
def bulkBuild (wbId : String) (createdAt : Int) : List WordInput → Nat → List Word
  | [], _ => []
  | d :: rest, n => mkNewWord wbId createdAt (genId n) d :: bulkBuild wbId createdAt rest (n + 1)

/-- `bulkImportWords`: a single `Timestamp.now()`, one generated id per item,
all `batch.set` writes committed atomically, then the cache entry is
appended to (or initialised). -/
def bulkImportWords (s : DB) (u wbId : String) (data : List WordInput) : List Word × DB :=
  let p := now s
  let newWords := bulkBuild wbId p.1 data p.2.nextId
  let s2 := { p.2 with nextId := p.2.nextId + data.length }
  let s3 := { s2 with
    words := newWords.foldl
      (fun ws (w : Word) => batchSetWord ws u wbId w.id (docOfWord w)) s2.words }
  let key := makeCacheKey u wbId
  let s4 :=
    match cacheGet s3.wordCache key with
    | some old => { s3 with wordCache := cacheSet s3.wordCache key (old ++ newWords) }
    | none => { s3 with wordCache := cacheSet s3.wordCache key newWords }
  (newWords, s4)

/-- The progress-clearing partial update of `resetWordsProgress` on a stored
document: `{ mastery: 0, studyCount: 0, reviewDate: null }`. -/
def clearProgressDoc (d : WordDoc) : WordDoc :=
  { d with mastery := 0, studyCount := some 0, reviewDate := some none }

/-- The same clearing applied to a cached word record. -/
def clearProgressWord (w : Word) : Word :=
  { w with mastery := 0, studyCount := some 0, reviewDate := some none }

/-- `resetWordsProgress`: one atomic batch of `batch.update` calls (the
commit fails when any listed document is absent, leaving everything
unchanged), then the cache entry, when present, is rewritten in lockstep. -/
def resetWordsProgress (s : DB) (u wbId : String) (ids : List String) : Option DB :=
  if ids.all (fun i => existsWordDoc s u wbId i) then
    let s1 := { s with
      words := s.words.map (fun e =>
        if e.1 == u && e.2.1 == wbId && ids.contains e.2.2.1 then
          (e.1, e.2.1, e.2.2.1, clearProgressDoc e.2.2.2)
        else e) }
    let key := makeCacheKey u wbId
    some (match cacheGet s1.wordCache key with
      | some ws =>
        let ws' := ws.map (fun w => if ids.contains w.id then clearProgressWord w else w)
        { s1 with wordCache := cacheSet s1.wordCache key ws' }
      | none => s1)
  else none

/-- `bulkDeleteWords`: one atomic batch of `batch.delete` calls, then the
cache entry, when present, is filtered in lockstep. -/
def bulkDeleteWords (s : DB) (u wbId : String) (ids : List String) : DB :=
  let s1 := { s with
    words := s.words.filter (fun e =>
      !(e.1 == u && e.2.1 == wbId && ids.contains e.2.2.1)) }
  let key := makeCacheKey u wbId
  match cacheGet s1.wordCache key with
  | some ws =>
    let ws' := ws.filter (fun w => !(ids.contains w.id))
    { s1 with wordCache := cacheSet s1.wordCache key ws' }
  | none => s1

/-- The tag record built by a collection read:
`{ id: docSnap.id, ...docSnap.data() }`. -/
def tagOfDoc (key : String) (d : TagDoc) : PartOfSpeechTag :=
  { id := d.storedId.getD key, name := d.name, color := d.color, userId := d.userId }

/-- `getPartOfSpeechTags`: cache-first per user, read-through otherwise. -/
def getPartOfSpeechTags (s : DB) (u : String) : List PartOfSpeechTag × DB :=
  match cacheGet s.posTagCache u with
  | some ts => (ts, s)
  | none =>
    let ts := (tagEntries s u).map (fun e => tagOfDoc e.1 e.2)
    (ts, { s with posTagCache := cacheSet s.posTagCache u ts })

/-- `createPartOfSpeechTag`: `addDoc` of `{ ...data, userId }` (no `id`
field stored), then a cache append when the user's entry exists. -/
def createPartOfSpeechTag (s : DB) (u : String) (data : TagInput) : PartOfSpeechTag × DB :=
  let q := freshId s
  let s2 := { q.2 with posTags := q.2.posTags ++
    [(u, q.1, { storedId := none, name := data.name, color := data.color, userId := u })] }
  let tag : PartOfSpeechTag := { id := q.1, name := data.name, color := data.color, userId := u }
  let s3 :=
    match cacheGet s2.posTagCache u with
    | some ts => { s2 with posTagCache := cacheSet s2.posTagCache u (ts ++ [tag]) }
    | none => s2
  (tag, s3)

/-- `updateDoc` applied to a stored tag document. -/
def mergeTagDoc (d : TagDoc) (p : PartialTag) : TagDoc :=
  { storedId := mergeOpt p.id d.storedId
    name := p.name.getD d.name
    color := p.color.getD d.color
    userId := p.userId.getD d.userId }

/-- `{ ...t, ...data }` applied to a cached tag record. -/
def mergeTag (t : PartOfSpeechTag) (p : PartialTag) : PartOfSpeechTag :=
  { id := p.id.getD t.id
    name := p.name.getD t.name
    color := p.color.getD t.color
    userId := p.userId.getD t.userId }

/-- `updatePartOfSpeechTag`: `updateDoc` (fails when the document is
absent), then the cache entry, when present, is rewritten client-side. -/
def updatePartOfSpeechTag (s : DB) (u tagId : String) (data : PartialTag) : Option DB :=
  if existsTagDoc s u tagId then
    let s1 := { s with
      posTags := s.posTags.map (fun e =>
        if e.1 == u && e.2.1 == tagId then (e.1, e.2.1, mergeTagDoc e.2.2 data) else e) }
    some (match cacheGet s1.posTagCache u with
      | some ts =>
        let ts' := ts.map (fun t => if t.id == tagId then mergeTag t data else t)
        { s1 with posTagCache := cacheSet s1.posTagCache u ts' }
      | none => s1)
  else none

/-- `deletePartOfSpeechTag`: fan-out over every wordbook document of the
user, removing `tagId` from the `partOfSpeech` list of every word that
contains it, then the tag document is deleted and the tag cache entry, when
present, is filtered.  The word cache is not touched. -/
def deletePartOfSpeechTag (s : DB) (u tagId : String) : DB :=
  let wbIds := (wbEntries s u).map (fun e => e.1)
  let words' := s.words.map (fun e =>
    if e.1 == u && wbIds.contains e.2.1 && e.2.2.2.partOfSpeech.contains tagId then
      (e.1, e.2.1, e.2.2.1,
        { e.2.2.2 with partOfSpeech := e.2.2.2.partOfSpeech.filter (fun t => t != tagId) })
    else e)
  let posTags' := s.posTags.filter (fun e => !(e.1 == u && e.2.1 == tagId))
  let cache' :=
    match cacheGet s.posTagCache u with
    | some ts => cacheSet s.posTagCache u (ts.filter (fun t => t.id != tagId))
    | none => s.posTagCache
  { s with words := words', posTags := posTags', posTagCache := cache' }

/-- One call of the data-access layer, with its arguments. -/
inductive Op where
  | getWordbooks (u : String)
  | createWordbook (u name : String)
  | deleteWordbook (u wbId : String)
  | trashWordbook (u wbId : String)
  | getTrashedWordbooks (u : String)
  | clearTrashed (u : String)
  | updateWordbookName (u wbId newName : String)
  | getWordbook (u wbId : String)
  | getWords (u wbId : String)
  | createWord (u wbId : String) (d : WordInput)
  | updateWord (u wbId wordId : String) (p : PartialWord)
  | deleteWord (u wbId wordId : String)
  | bulkImport (u wbId : String) (data : List WordInput)
  | resetProgress (u wbId : String) (ids : List String)
  | bulkDelete (u wbId : String) (ids : List String)
  | getTags (u : String)
  | createTag (u : String) (d : TagInput)
  | updateTag (u tagId : String) (p : PartialTag)
  | deleteTag (u tagId : String)

/-- The state effect of one layer call (results are discarded; a thrown
store error leaves the state unchanged). -/
def applyOp (s : DB) : Op → DB
  | .getWordbooks _ => s
  | .createWordbook u n => (createWordbook s u n).2
  | .deleteWordbook u i => deleteWordbook s u i
  | .trashWordbook u i => (trashWordbook s u i).getD s
  | .getTrashedWordbooks _ => s
  | .clearTrashed u => clearTrashedWordbooks s u
  | .updateWordbookName u i n => (updateWordbookName s u i n).getD s
  | .getWordbook _ _ => s
  | .getWords u w => (getWordsByWordbookId s u w).2
  | .createWord u w d => (createWord s u w d).2
  | .updateWord u w i p => (updateWord s u w i p).getD s
  | .deleteWord u w i => deleteWord s u w i
  | .bulkImport u w l => (bulkImportWords s u w l).2
  | .resetProgress u w ids => (resetWordsProgress s u w ids).getD s
  | .bulkDelete u w ids => bulkDeleteWords s u w ids
  | .getTags u => (getPartOfSpeechTags s u).2
  | .createTag u d => (createPartOfSpeechTag s u d).2
  | .updateTag u t p => (updatePartOfSpeechTag s u t p).getD s
  | .deleteTag u t => deletePartOfSpeechTag s u t

/-- A sequence of layer calls. -/
def applyOps (s : DB) (ops : List Op) : DB :=
  ops.foldl applyOp s

/-- The property that a trashed wordbook document stays trashed: every
document at `users/{u}/wordbooks/{i}` carries `trashed: true`. -/
def stillTrashed (s : DB) (u i : String) : Prop :=
  ∀ d : WordbookDoc, (u, i, d) ∈ s.wordbooks → d.trashed = some true

/-! ### Sample data for concrete witnesses -/

/-- A sample caller input for a word. -/
def sampleInput : WordInput :=
  { word := "ni", pinyin := "ni", favorite := false, translation := "you"
    partOfSpeech := ["n"], exampleSentence := "", exampleTranslation := ""
    relatedWords := none, usageFrequency := 1, mastery := 3, note := "" }

/-- A sample word record with nonzero progress fields. -/
def sampleWord : Word :=
  { toWordInput := sampleInput, wordbookId := "b", createdAt := 5
    reviewDate := some (some 9), studyCount := some 2, id := "w1" }

/-- A sample stored word document (no stored `id` field). -/
def sampleWordDoc : WordDoc :=
  { toWordInput := sampleInput, wordbookId := "b", createdAt := 5
    reviewDate := some (some 9), studyCount := some 2, storedId := none }

/-- A sample non-trashed wordbook document. -/
def sampleWbDoc : WordbookDoc :=
  { name := "book", userId := "u", createdAt := 1
    trashed := some false, trashedAt := some none }

/-- The empty state with the identity clock trace. -/
def emptyDB : DB :=
  { wordbooks := [], words := [], posTags := [], wordCache := [], posTagCache := []
    nextId := 0, tick := 0, trace := fun n => Int.ofNat n }

/-! ### Cache helper lemmas -/

theorem find?_map_set {α : Type} (c : List (String × α)) (k : String) (v : α)
    (h : (c.find? (fun kv => kv.1 == k)).isSome = true) :
    (c.map (fun kv => if kv.1 == k then (k, v) else kv)).find? (fun kv => kv.1 == k)
      = some (k, v) := by
  induction c with
  | nil => simp [List.find?] at h
  | cons x xs ih =>
    rw [List.map_cons]
    cases hx : (x.1 == k) with
    | true =>
      simp only [hx, if_true, List.find?_cons, beq_self_eq_true]
    | false =>
      simp only [Bool.false_eq_true, if_false, List.find?_cons, hx]
      apply ih
      simp only [List.find?_cons, hx] at h
      exact h

theorem find?_map_set_ne {α : Type} (c : List (String × α)) (k k' : String) (v : α)
    (h : k' ≠ k) :
    (c.map (fun kv => if kv.1 == k then (k, v) else kv)).find? (fun kv => kv.1 == k')
      = c.find? (fun kv => kv.1 == k') := by
  induction c with
  | nil => rfl
  | cons x xs ih =>
    rw [List.map_cons]
    cases hx : (x.1 == k) with
    | true =>
      have hxk : x.1 = k := by simpa using hx
      have h1 : (((k, v) : String × α).1 == k') = false := by
        simp only [beq_eq_false_iff_ne, ne_eq]
        exact fun hkk => h hkk.symm
      have h2 : (x.1 == k') = false := by
        simp only [hxk, beq_eq_false_iff_ne, ne_eq]
        exact fun hkk => h hkk.symm
      simp only [hx, if_true, List.find?_cons, h1, h2]
      exact ih
    | false =>
      simp only [Bool.false_eq_true, if_false]
      cases hp : (x.1 == k') with
      | true => simp only [List.find?_cons, hp]
      | false =>
        simp only [List.find?_cons, hp]
        exact ih

theorem cacheGet_cacheSet_self {α : Type} (c : List (String × α)) (k : String) (v : α) :
    cacheGet (cacheSet c k v) k = some v := by
  unfold cacheGet cacheSet
  by_cases h : (c.find? (fun kv => kv.1 == k)).isSome
  · simp only [h, if_true, find?_map_set c k v h, Option.map_some']
  · have hn : c.find? (fun kv => kv.1 == k) = none := by
      cases hf : c.find? (fun kv => kv.1 == k) with
      | none => rfl
      | some x => rw [hf] at h; simp at h
    rw [if_neg h, List.find?_append, hn]
    simp [List.find?]

theorem cacheGet_cacheSet_ne {α : Type} (c : List (String × α)) (k k' : String) (v : α)
    (h : k' ≠ k) :
    cacheGet (cacheSet c k v) k' = cacheGet c k' := by
  unfold cacheGet cacheSet
  by_cases hs : (c.find? (fun kv => kv.1 == k)).isSome
  · simp only [hs, if_true, find?_map_set_ne c k k' v h]
  · have hkk' : (k == k') = false := by
      simp
      exact fun hkk => h hkk.symm
    rw [if_neg hs, List.find?_append]
    cases hf : c.find? (fun kv => kv.1 == k') with
    | none => simp [List.find?, hkk']
    | some x => simp

/-! ### Claim C5: cache-first reads are stale by design -/

/-- Claim C5 (confirmed): for a (user, wordbook) key whose cache entry is
populated, `getWordsByWordbookId` returns the cached list verbatim with the
state unchanged, and its result does not depend on the store's word
collection — so after an external process mutates the store's words, a
second call still returns the pre-mutation cached list and the two calls
return equal lists. -/
theorem claim5_cacheHit_stale (s : DB) (u w : String) (ws : List Word)
    (h : cacheGet s.wordCache (makeCacheKey u w) = some ws) :
    getWordsByWordbookId s u w = (ws, s) ∧
    ∀ words' : List (String × String × String × WordDoc),
      (getWordsByWordbookId { s with words := words' } u w).1
        = (getWordsByWordbookId s u w).1 := by
  constructor
  · simp [getWordsByWordbookId, h]
  · intro words'
    simp [getWordsByWordbookId, h]

/-- A concrete state whose word cache is populated for the key of
("u", "b"). -/
def dbC5 : DB := { emptyDB with wordCache := [("u_b", [sampleWord])] }

/-- Witness for C5: the cache-hit hypothesis holds at `dbC5` and the claim
theorem applies there. -/
theorem claim5_cacheHit_stale_witness :
    cacheGet dbC5.wordCache (makeCacheKey "u" "b") = some [sampleWord] ∧
    getWordsByWordbookId dbC5 "u" "b" = ([sampleWord], dbC5) := by
  refine ⟨by decide, (claim5_cacheHit_stale dbC5 "u" "b" [sampleWord] (by decide)).1⟩

/-! ### Claim C9: deletePartOfSpeechTag leaves the word cache alone -/

/-- A concrete state with a populated word cache whose single entry carries
the tag "n" in its `partOfSpeech` list, and a stored tag document "n". -/
def dbC9 : DB :=
  { emptyDB with
    wordCache := [("u_b", [sampleWord])]
    posTags := [("u", "n", { storedId := none, name := "noun", color := "red", userId := "u" })] }

/-- Claim C9 (confirmed): `deletePartOfSpeechTag` rewrites stored words and
the tag cache but never touches the word cache, so a cached word list can
still contain the deleted tag id in its `partOfSpeech` arrays. -/
theorem claim9_deleteTag_wordCache_frame :
    (∀ (s : DB) (u tagId : String),
      (deletePartOfSpeechTag s u tagId).wordCache = s.wordCache) ∧
    cacheGet (deletePartOfSpeechTag dbC9 "u" "n").wordCache (makeCacheKey "u" "b")
      = some [sampleWord] ∧
    sampleWord.partOfSpeech.contains "n" = true := by
  refine ⟨fun s u t => rfl, by decide, by decide⟩

/-! ### Claim C7: createWordbook re-stamps the returned record -/

/-- Claim C7 (confirmed): `createWordbook` stores a document with the given
name, user id, `trashed: false`, `trashedAt: null` and a creation timestamp
from the clock read taken before the write, and returns the record with the
store-assigned id whose `createdAt` comes from a second, later clock read —
on the identity trace the two stamps differ. -/
theorem claim7_createWordbook_restamp (s : DB) (u nm : String) :
    (u, genId s.nextId,
      ({ name := nm, userId := u, createdAt := s.trace s.tick
         trashed := some false, trashedAt := some none } : WordbookDoc))
      ∈ (createWordbook s u nm).2.wordbooks ∧
    (createWordbook s u nm).1 =
      { name := nm, userId := u, createdAt := s.trace (s.tick + 1)
        trashed := some false, trashedAt := some none, id := genId s.nextId } ∧
    (createWordbook emptyDB "u" "n").1.createdAt ≠ emptyDB.trace emptyDB.tick := by
  refine ⟨?_, rfl, by decide⟩
  simp [createWordbook, now, freshId]

/-! ### Claim C1: deleteWordbook versus the word cache -/

/-- A concrete state where wordbook "b" of user "u" exists with one word and
the word cache is already populated for that key. -/
def dbC1 : DB :=
  { emptyDB with
    wordbooks := [("u", "b", sampleWbDoc)]
    words := [("u", "b", "w1", sampleWordDoc)]
    wordCache := [("u_b", [sampleWord])] }

/-- Claim C1 as stated is false: `deleteWordbook` does not invalidate the
word cache and `getWordsByWordbookId` is cache-first, so with a populated
cache entry the word list returned after `deleteWordbook` is the stale
cached list, not the empty list. -/
theorem claim1_counterexample :
    (getWordsByWordbookId (deleteWordbook dbC1 "u" "b") "u" "b").1 ≠ [] := by
  decide

/-- Claim C1 amended (confirmed): after `deleteWordbook(user, id)`,
`getWordbook` returns the not-found signal, and `getWordsByWordbookId`
returns the empty list provided the process-local word cache holds no entry
for that (user, wordbook) key. -/
theorem claim1_amended_deleteWordbook (s : DB) (u wbId : String)
    (hc : cacheGet s.wordCache (makeCacheKey u wbId) = none) :
    getWordbook (deleteWordbook s u wbId) u wbId = none ∧
    (getWordsByWordbookId (deleteWordbook s u wbId) u wbId).1 = [] := by
  constructor
  · have h1 : ((deleteWordbook s u wbId).wordbooks).find?
        (fun e => e.1 == u && e.2.1 == wbId) = none := by
      rw [List.find?_eq_none]
      intro e he
      have h2 := List.of_mem_filter he
      simp only [Bool.not_eq_true'] at h2
      simp [h2]
    simp [getWordbook, h1]
  · have hw : wordEntries (deleteWordbook s u wbId) u wbId = [] := by
      rw [wordEntries, List.filterMap_eq_nil_iff]
      intro e he
      have h2 := List.of_mem_filter he
      simp only [Bool.not_eq_true'] at h2
      simp [h2]
    have hcache : (deleteWordbook s u wbId).wordCache = s.wordCache := rfl
    simp [getWordsByWordbookId, hcache, hc, hw]

/-- A concrete state where wordbook "b" of user "u" exists with one word and
the word cache is empty. -/
def dbC1cold : DB :=
  { emptyDB with
    wordbooks := [("u", "b", sampleWbDoc)]
    words := [("u", "b", "w1", sampleWordDoc)] }

/-- Witness for the amended C1: the cold-cache hypothesis holds at
`dbC1cold` and the amended theorem applies there. -/
theorem claim1_amended_witness :
    cacheGet dbC1cold.wordCache (makeCacheKey "u" "b") = none ∧
    getWordbook (deleteWordbook dbC1cold "u" "b") "u" "b" = none ∧
    (getWordsByWordbookId (deleteWordbook dbC1cold "u" "b") "u" "b").1 = [] := by
  have h := claim1_amended_deleteWordbook dbC1cold "u" "b" (by decide)
  exact ⟨by decide, h.1, h.2⟩

/-! ### Claim C8: getWordbook not-found behaviour -/

theorem find?_of_filter_singleton {α : Type} (p : α → Bool) (l : List α) (a : α)
    (h : l.filter p = [a]) : l.find? p = some a := by
  induction l with
  | nil => simp at h
  | cons x xs ih =>
    cases hx : p x with
    | true =>
      rw [List.filter_cons, if_pos hx] at h
      simp only [List.cons.injEq] at h
      obtain ⟨rfl, h2⟩ := h
      simp [List.find?_cons, hx]
    | false =>
      rw [List.filter_cons, if_neg (by simp [hx])] at h
      simp only [List.find?_cons, hx]
      exact ih h

/-- Claim C8 (confirmed): `getWordbook` is total — when the store holds no
document at `users/{u}/wordbooks/{id}` it returns the not-found signal
(`none`, never a thrown error), and when exactly one document is stored at
that path it returns the record with the document's id and stored fields. -/
theorem claim8_getWordbook_notFound (s : DB) (u wbId : String) :
    (existsWordbookDoc s u wbId = false → getWordbook s u wbId = none) ∧
    (∀ d : WordbookDoc,
      s.wordbooks.filter (fun e => e.1 == u && e.2.1 == wbId) = [(u, wbId, d)] →
      getWordbook s u wbId = some { toWordbookDoc := d, id := wbId }) := by
  constructor
  · intro h
    have h1 : s.wordbooks.find? (fun e => e.1 == u && e.2.1 == wbId) = none := by
      rw [List.find?_eq_none]
      intro e he
      unfold existsWordbookDoc at h
      rw [List.any_eq_false] at h
      exact h e he
    simp [getWordbook, h1]
  · intro d hd
    have h1 := find?_of_filter_singleton _ _ _ hd
    simp [getWordbook, h1]

/-- Witness for C8 at two concrete states: an empty store (not-found case)
and a store holding exactly one matching document. -/
theorem claim8_getWordbook_notFound_witness :
    (existsWordbookDoc emptyDB "u" "b" = false ∧ getWordbook emptyDB "u" "b" = none) ∧
    (dbC1cold.wordbooks.filter (fun e => e.1 == "u" && e.2.1 == "b")
        = [("u", "b", sampleWbDoc)] ∧
      getWordbook dbC1cold "u" "b" = some { toWordbookDoc := sampleWbDoc, id := "b" }) := by
  refine ⟨⟨by decide, (claim8_getWordbook_notFound emptyDB "u" "b").1 (by decide)⟩,
    ⟨by decide, (claim8_getWordbook_notFound dbC1cold "u" "b").2 sampleWbDoc (by decide)⟩⟩

/-! ### Claim C10: the two listings partition the user's documents -/

/-- All the user's wordbook documents as records, one per document. -/
def allWordbookRecords (s : DB) (u : String) : List Wordbook :=
  (wbEntries s u).map (fun e => { toWordbookDoc := e.2, id := e.1 })

theorem filterMap_split_perm {α β : Type} (p : α → Bool) (f : α → β) (l : List α) :
    (l.filterMap (fun a => if p a then none else some (f a)) ++
      l.filterMap (fun a => if p a then some (f a) else none)).Perm (l.map f) := by
  induction l with
  | nil => simp
  | cons a l ih =>
    cases hp : p a with
    | true =>
      simp only [List.filterMap_cons, hp, if_true, List.map_cons]
      exact List.Perm.trans List.perm_middle (ih.cons (f a))
    | false =>
      simp only [List.filterMap_cons, hp, Bool.false_eq_true, if_false, List.map_cons]
      exact ih.cons (f a)

theorem mem_wbEntries (s : DB) (u i : String) (d : WordbookDoc) :
    (i, d) ∈ wbEntries s u ↔ (u, i, d) ∈ s.wordbooks := by
  unfold wbEntries
  rw [List.mem_filterMap]
  constructor
  · rintro ⟨⟨a, b, c⟩, he, hsome⟩
    by_cases hx : (a == u) = true
    · have ha : a = u := by simpa using hx
      rw [if_pos hx] at hsome
      simp only [Option.some.injEq, Prod.mk.injEq] at hsome
      obtain ⟨hb, hc⟩ := hsome
      subst ha hb hc
      exact he
    · rw [if_neg hx] at hsome
      cases hsome
  · intro h
    exact ⟨(u, i, d), h, by simp⟩

theorem mem_allWordbookRecords (s : DB) (u : String) (wb : Wordbook) :
    wb ∈ allWordbookRecords s u ↔ (u, wb.id, wb.toWordbookDoc) ∈ s.wordbooks := by
  unfold allWordbookRecords
  rw [List.mem_map]
  constructor
  · rintro ⟨e, he, rfl⟩
    exact (mem_wbEntries s u e.1 e.2).1 he
  · intro h
    exact ⟨(wb.id, wb.toWordbookDoc), (mem_wbEntries s u wb.id wb.toWordbookDoc).2 h, rfl⟩

theorem mem_getWordbooksByUserId (s : DB) (u : String) (wb : Wordbook) :
    wb ∈ getWordbooksByUserId s u ↔
      ((u, wb.id, wb.toWordbookDoc) ∈ s.wordbooks ∧ truthy wb.trashed = false) := by
  unfold getWordbooksByUserId
  rw [List.mem_filterMap]
  constructor
  · rintro ⟨e, he, hsome⟩
    cases hp : truthy e.2.trashed with
    | true => rw [hp] at hsome; simp at hsome
    | false =>
      rw [hp] at hsome
      simp only [Bool.false_eq_true, if_false, Option.some.injEq] at hsome
      subst hsome
      exact ⟨(mem_wbEntries s u e.1 e.2).1 he, hp⟩
  · rintro ⟨h, hp⟩
    refine ⟨(wb.id, wb.toWordbookDoc), (mem_wbEntries s u wb.id wb.toWordbookDoc).2 h, ?_⟩
    simp only [hp, Bool.false_eq_true, if_false]

theorem mem_getTrashedWordbooksByUserId (s : DB) (u : String) (wb : Wordbook) :
    wb ∈ getTrashedWordbooksByUserId s u ↔
      ((u, wb.id, wb.toWordbookDoc) ∈ s.wordbooks ∧ truthy wb.trashed = true) := by
  unfold getTrashedWordbooksByUserId
  rw [List.mem_filterMap]
  constructor
  · rintro ⟨e, he, hsome⟩
    cases hp : truthy e.2.trashed with
    | false => rw [hp] at hsome; simp at hsome
    | true =>
      rw [hp] at hsome
      simp only [if_true, Option.some.injEq] at hsome
      subst hsome
      exact ⟨(mem_wbEntries s u e.1 e.2).1 he, hp⟩
  · rintro ⟨h, hp⟩
    refine ⟨(wb.id, wb.toWordbookDoc), (mem_wbEntries s u wb.id wb.toWordbookDoc).2 h, ?_⟩
    simp only [hp, if_true]

/-- Claim C10 (confirmed): for every user and store state,
`getWordbooksByUserId` and `getTrashedWordbooksByUserId` partition the
user's wordbook documents: membership is decided solely by the truthiness
of the `trashed` flag, the two lists are disjoint, and together they are a
permutation of the user's documents (each document appearing exactly
once). -/
theorem claim10_trash_partition (s : DB) (u : String) :
    (∀ wb : Wordbook, wb ∈ getWordbooksByUserId s u ↔
      (wb ∈ allWordbookRecords s u ∧ truthy wb.trashed = false)) ∧
    (∀ wb : Wordbook, wb ∈ getTrashedWordbooksByUserId s u ↔
      (wb ∈ allWordbookRecords s u ∧ truthy wb.trashed = true)) ∧
    (∀ wb : Wordbook,
      ¬(wb ∈ getWordbooksByUserId s u ∧ wb ∈ getTrashedWordbooksByUserId s u)) ∧
    (getWordbooksByUserId s u ++ getTrashedWordbooksByUserId s u).Perm
      (allWordbookRecords s u) := by
  refine ⟨?_, ?_, ?_, ?_⟩
  · intro wb
    rw [mem_getWordbooksByUserId, mem_allWordbookRecords]
  · intro wb
    rw [mem_getTrashedWordbooksByUserId, mem_allWordbookRecords]
  · rintro wb ⟨h1, h2⟩
    have hf := ((mem_getWordbooksByUserId s u wb).1 h1).2
    have ht := ((mem_getTrashedWordbooksByUserId s u wb).1 h2).2
    rw [hf] at ht
    cases ht
  · exact filterMap_split_perm (fun e => truthy e.2.trashed)
      (fun e => ({ toWordbookDoc := e.2, id := e.1 } : Wordbook)) (wbEntries s u)

/-! ### Claim C4: resetWordsProgress clears exactly the listed words -/

/-- Claim C4 (confirmed): when `resetWordsProgress(user, wordbookId, ids)`
can complete (every listed document exists, otherwise the atomic batch
fails and nothing changes), it succeeds, and afterwards every stored word
document whose id is in `ids` has `mastery = 0`, `studyCount = 0` and
`reviewDate = null`; every document whose id is not listed (and every
document of another path) is unchanged in all fields in its position; the
cache entry for the key, when present, is rewritten in lockstep, and every
other cache entry is untouched. -/
theorem claim4_resetWordsProgress (s : DB) (u wbId : String) (ids : List String)
    (h : ids.all (fun i => existsWordDoc s u wbId i) = true) :
    (resetWordsProgress s u wbId ids).isSome = true ∧
    (((resetWordsProgress s u wbId ids).getD s).words.length = s.words.length ∧
      (∀ n : Nat, ((resetWordsProgress s u wbId ids).getD s).words[n]? =
        s.words[n]?.map (fun e =>
          if e.1 == u && e.2.1 == wbId && ids.contains e.2.2.1 then
            (e.1, e.2.1, e.2.2.1, clearProgressDoc e.2.2.2)
          else e))) ∧
    (∀ e ∈ ((resetWordsProgress s u wbId ids).getD s).words,
      e.1 = u → e.2.1 = wbId → ids.contains e.2.2.1 = true →
      e.2.2.2.mastery = 0 ∧ e.2.2.2.studyCount = some 0 ∧ e.2.2.2.reviewDate = some none) ∧
    (cacheGet ((resetWordsProgress s u wbId ids).getD s).wordCache (makeCacheKey u wbId)
      = (cacheGet s.wordCache (makeCacheKey u wbId)).map
          (fun ws => ws.map (fun w => if ids.contains w.id then clearProgressWord w else w))) ∧
    (∀ k : String, k ≠ makeCacheKey u wbId →
      cacheGet ((resetWordsProgress s u wbId ids).getD s).wordCache k
        = cacheGet s.wordCache k) := by
  have hrun : resetWordsProgress s u wbId ids =
      some (match cacheGet ({ s with
          words := s.words.map (fun e =>
            if e.1 == u && e.2.1 == wbId && ids.contains e.2.2.1 then
              (e.1, e.2.1, e.2.2.1, clearProgressDoc e.2.2.2)
            else e) } : DB).wordCache (makeCacheKey u wbId) with
        | some ws =>
          { s with
            words := s.words.map (fun e =>
              if e.1 == u && e.2.1 == wbId && ids.contains e.2.2.1 then
                (e.1, e.2.1, e.2.2.1, clearProgressDoc e.2.2.2)
              else e)
            wordCache := cacheSet s.wordCache (makeCacheKey u wbId)
              (ws.map (fun w => if ids.contains w.id then clearProgressWord w else w)) }
        | none =>
          { s with
            words := s.words.map (fun e =>
              if e.1 == u && e.2.1 == wbId && ids.contains e.2.2.1 then
                (e.1, e.2.1, e.2.2.1, clearProgressDoc e.2.2.2)
              else e) }) := by
    unfold resetWordsProgress
    rw [if_pos h]
  refine ⟨?_, ⟨?_, ?_⟩, ?_, ?_, ?_⟩
  · rw [hrun]; rfl
  · rw [hrun]
    cases hc : cacheGet s.wordCache (makeCacheKey u wbId) <;>
      simp [hc, List.length_map]
  · intro n
    rw [hrun]
    cases hc : cacheGet s.wordCache (makeCacheKey u wbId) <;>
      simp [hc, List.getElem?_map]
  · intro e he h1 h2 h3
    rw [hrun] at he
    have hw : e ∈ s.words.map (fun e =>
        if e.1 == u && e.2.1 == wbId && ids.contains e.2.2.1 then
          (e.1, e.2.1, e.2.2.1, clearProgressDoc e.2.2.2)
        else e) := by
      cases hc : cacheGet s.wordCache (makeCacheKey u wbId) <;>
        simpa [hc] using he
    rw [List.mem_map] at hw
    obtain ⟨a, ha, hae⟩ := hw
    cases hcond : (a.1 == u && a.2.1 == wbId && ids.contains a.2.2.1) with
    | true =>
      rw [if_pos hcond] at hae
      subst hae
      exact ⟨rfl, rfl, rfl⟩
    | false =>
      rw [if_neg (by rw [hcond]; exact Bool.false_ne_true)] at hae
      subst hae
      simp only [h1, h2, h3, beq_self_eq_true, Bool.and_self, Bool.and_true,
        Bool.true_and, Bool.true_eq_false] at hcond
  · rw [hrun]
    cases hc : cacheGet s.wordCache (makeCacheKey u wbId) with
    | none => simp [hc]
    | some ws => simp [hc, cacheGet_cacheSet_self]
  · intro k hk
    rw [hrun]
    cases hc : cacheGet s.wordCache (makeCacheKey u wbId) with
    | none => simp [hc]
    | some ws => simp [hc, cacheGet_cacheSet_ne _ _ _ _ hk]

/-- A concrete state for the C4 witness: two stored words, one listed for
reset, and a populated cache entry mirroring the store. -/
def dbC4 : DB :=
  { emptyDB with
    wordbooks := [("u", "b", sampleWbDoc)]
    words := [("u", "b", "w1", sampleWordDoc),
              ("u", "b", "w2", { sampleWordDoc with createdAt := 6 })]
    wordCache := [("u_b", [sampleWord, { sampleWord with id := "w2", createdAt := 6 }])] }

/-- Witness for C4: the all-documents-exist hypothesis holds at `dbC4` for
`ids = ["w1"]` and the claim theorem applies there. -/
theorem claim4_resetWordsProgress_witness :
    (["w1"].all (fun i => existsWordDoc dbC4 "u" "b" i) = true) ∧
    (resetWordsProgress dbC4 "u" "b" ["w1"]).isSome = true := by
  exact ⟨by decide, (claim4_resetWordsProgress dbC4 "u" "b" ["w1"] (by decide)).1⟩

/-! ### Claim C2: deletePartOfSpeechTag scrubs the tag everywhere -/

theorem mem_tagEntries (s : DB) (u i : String) (d : TagDoc) :
    (i, d) ∈ tagEntries s u ↔ (u, i, d) ∈ s.posTags := by
  unfold tagEntries
  rw [List.mem_filterMap]
  constructor
  · rintro ⟨⟨a, b, c⟩, he, hsome⟩
    by_cases hx : (a == u) = true
    · have ha : a = u := by simpa using hx
      rw [if_pos hx] at hsome
      simp only [Option.some.injEq, Prod.mk.injEq] at hsome
      obtain ⟨hb, hc⟩ := hsome
      subst ha hb hc
      exact he
    · rw [if_neg hx] at hsome
      cases hsome
  · intro h
    exact ⟨(u, i, d), h, by simp⟩

theorem contains_wbIds_of_exists (s : DB) (u i : String)
    (h : existsWordbookDoc s u i = true) :
    ((wbEntries s u).map (fun e => e.1)).contains i = true := by
  unfold existsWordbookDoc at h
  rw [List.any_eq_true] at h
  obtain ⟨⟨a, b, c⟩, ha, hp⟩ := h
  simp only [Bool.and_eq_true, beq_iff_eq] at hp
  obtain ⟨h1, h2⟩ := hp
  subst h1 h2
  have hm : (b, c) ∈ wbEntries s a := (mem_wbEntries s a b c).2 ha
  have : b ∈ (wbEntries s a).map (fun e => e.1) := List.mem_map.2 ⟨(b, c), hm, rfl⟩
  simpa using this

/-- Claim C2 (confirmed, under the side condition that the user's stored tag
documents carry no overriding `id` field — true of everything this layer
writes): after `deletePartOfSpeechTag(user, tagId)` completes, every word
document stored under an existing wordbook of that user has a
`partOfSpeech` list free of `tagId`, and `tagId` is absent from the ids
returned by `getPartOfSpeechTags(user)`. -/
theorem claim2_deletePartOfSpeechTag (s : DB) (u tagId : String)
    (hids : ∀ e ∈ s.posTags, e.1 = u → e.2.2.storedId = none) :
    (∀ e ∈ (deletePartOfSpeechTag s u tagId).words,
      e.1 = u → existsWordbookDoc s u e.2.1 = true →
      tagId ∉ e.2.2.2.partOfSpeech) ∧
    tagId ∉ ((getPartOfSpeechTags (deletePartOfSpeechTag s u tagId) u).1.map
      (fun t => t.id)) := by
  constructor
  · intro e he h1 h2
    have hw : e ∈ s.words.map (fun e =>
        if e.1 == u && ((wbEntries s u).map (fun x => x.1)).contains e.2.1
            && e.2.2.2.partOfSpeech.contains tagId then
          (e.1, e.2.1, e.2.2.1,
            { e.2.2.2 with partOfSpeech := e.2.2.2.partOfSpeech.filter (fun t => t != tagId) })
        else e) := he
    rw [List.mem_map] at hw
    obtain ⟨a, ha, hae⟩ := hw
    cases hcond : (a.1 == u && ((wbEntries s u).map (fun x => x.1)).contains a.2.1
        && a.2.2.2.partOfSpeech.contains tagId) with
    | true =>
      rw [if_pos hcond] at hae
      subst hae
      intro hmem
      have := (List.mem_filter.1 hmem).2
      simp at this
    | false =>
      rw [if_neg (by rw [hcond]; exact Bool.false_ne_true)] at hae
      subst hae
      have hc2 := contains_wbIds_of_exists s u a.2.1 h2
      simp only [h1, beq_self_eq_true, hc2, Bool.true_and, Bool.true_eq_false] at hcond
      simpa using hcond
  · cases hc : cacheGet s.posTagCache u with
    | some ts =>
      have hcache : (deletePartOfSpeechTag s u tagId).posTagCache
          = cacheSet s.posTagCache u (ts.filter (fun t => t.id != tagId)) := by
        simp [deletePartOfSpeechTag, hc]
      have hres : (getPartOfSpeechTags (deletePartOfSpeechTag s u tagId) u).1
          = ts.filter (fun t => t.id != tagId) := by
        simp [getPartOfSpeechTags, hcache, cacheGet_cacheSet_self]
      rw [hres, List.mem_map]
      rintro ⟨t, ht, hid⟩
      have h2 := (List.mem_filter.1 ht).2
      rw [hid] at h2
      simp at h2
    | none =>
      have hcache : (deletePartOfSpeechTag s u tagId).posTagCache = s.posTagCache := by
        simp [deletePartOfSpeechTag, hc]
      have hres : (getPartOfSpeechTags (deletePartOfSpeechTag s u tagId) u).1
          = (tagEntries (deletePartOfSpeechTag s u tagId) u).map
              (fun e => tagOfDoc e.1 e.2) := by
        simp [getPartOfSpeechTags, hcache, hc]
      rw [hres, List.mem_map]
      rintro ⟨t, ht, hid⟩
      rw [List.mem_map] at ht
      obtain ⟨e, he, het⟩ := ht
      have hmem : (u, e.1, e.2) ∈ (deletePartOfSpeechTag s u tagId).posTags :=
        (mem_tagEntries _ u e.1 e.2).1 he

      have hmem2 : (u, e.1, e.2) ∈ s.posTags.filter
          (fun x => !(x.1 == u && x.2.1 == tagId)) := hmem
      have hin := (List.mem_filter.1 hmem2).1
      have hpred := (List.mem_filter.1 hmem2).2
      have hstored : e.2.storedId = none := hids (u, e.1, e.2) hin rfl
      have hne : e.1 ≠ tagId := by
        simp only [Bool.not_eq_true', Bool.and_eq_false_iff, beq_eq_false_iff_ne, ne_eq] at hpred
        rcases hpred with h' | h'
        · exact absurd trivial h'
        · exact h'
      apply hne
      rw [← hid, ← het]
      simp [tagOfDoc, hstored]

/-- A concrete state for the C2 witness: one wordbook, one word tagged "n",
one stored tag document "n". -/
def dbC2 : DB :=
  { emptyDB with
    wordbooks := [("u", "b", sampleWbDoc)]
    words := [("u", "b", "w1", sampleWordDoc)]
    posTags := [("u", "n", { storedId := none, name := "noun", color := "red", userId := "u" })] }

/-- Witness for C2: the no-stored-id hypothesis holds at `dbC2` and the
claim theorem applies there. -/
theorem claim2_deletePartOfSpeechTag_witness :
    (∀ e ∈ dbC2.posTags, e.1 = "u" → e.2.2.storedId = none) ∧
    "n" ∉ ((getPartOfSpeechTags (deletePartOfSpeechTag dbC2 "u" "n") "u").1.map
      (fun t => t.id)) := by
  exact ⟨by decide, (claim2_deletePartOfSpeechTag dbC2 "u" "n" (by decide)).2⟩

/-! ### Claim C3: bulkImportWords -/

theorem genId_injective : Function.Injective genId := by
  intro a b h
  have h2 : List.replicate (a + 1) 'd' = List.replicate (b + 1) 'd' :=
    congrArg String.data h
  have h3 := congrArg List.length h2
  simp only [List.length_replicate] at h3
  omega

theorem length_bulkBuild (wbId : String) (t : Int) (data : List WordInput) (n : Nat) :
    (bulkBuild wbId t data n).length = data.length := by
  induction data generalizing n with
  | nil => rfl
  | cons d rest ih => simp [bulkBuild, ih]

theorem mem_bulkBuild (wbId : String) (t : Int) (data : List WordInput) (n : Nat)
    (w : Word) (hw : w ∈ bulkBuild wbId t data n) :
    w.createdAt = t ∧ w.wordbookId = wbId ∧ w.reviewDate = some none ∧
      w.studyCount = some 0 := by
  induction data generalizing n with
  | nil => cases hw
  | cons d rest ih =>
    rcases List.mem_cons.1 hw with rfl | hw2
    · exact ⟨rfl, rfl, rfl, rfl⟩
    · exact ih (n + 1) hw2

theorem bulkBuild_map_id (wbId : String) (t : Int) (data : List WordInput) (n : Nat) :
    (bulkBuild wbId t data n).map (fun w => w.id)
      = (List.range data.length).map (fun k => genId (n + k)) := by
  induction data generalizing n with
  | nil => rfl
  | cons d rest ih =>
    simp only [bulkBuild, List.map_cons, ih (n + 1), List.length_cons,
      List.range_succ_eq_map, List.map_map]
    congr 1
    apply List.map_congr_left
    intro k _
    simp only [Function.comp_apply]
    congr 1
    omega

theorem bulkBuild_ids_nodup (wbId : String) (t : Int) (data : List WordInput) (n : Nat) :
    ((bulkBuild wbId t data n).map (fun w => w.id)).Nodup := by
  rw [bulkBuild_map_id]
  refine List.Nodup.map ?_ (List.nodup_range _)
  intro a b hab
  have := genId_injective hab
  omega

theorem mem_batchSetWord_self (ws : List (String × String × String × WordDoc))
    (u wbId i : String) (d : WordDoc) :
    (u, wbId, i, d) ∈ batchSetWord ws u wbId i d := by
  unfold batchSetWord
  exact List.mem_append_right _ (List.mem_singleton.2 rfl)

theorem mem_batchSetWord_of_ne (ws : List (String × String × String × WordDoc))
    (u wbId i : String) (d : WordDoc) (e : String × String × String × WordDoc)
    (he : e ∈ ws) (hne : e.2.2.1 ≠ i) : e ∈ batchSetWord ws u wbId i d := by
  unfold batchSetWord
  apply List.mem_append_left
  refine List.mem_filter.2 ⟨he, ?_⟩
  have h2 : (e.2.2.1 == i) = false := by simpa using hne
  simp [h2]

theorem mem_foldl_batchSet_preserve (u wbId : String) (l : List Word)
    (ws : List (String × String × String × WordDoc))
    (e : String × String × String × WordDoc) (he : e ∈ ws)
    (h : ∀ x ∈ l, e.2.2.1 ≠ x.id) :
    e ∈ l.foldl (fun acc (x : Word) => batchSetWord acc u wbId x.id (docOfWord x)) ws := by
  induction l generalizing ws with
  | nil => exact he
  | cons a l ih =>
    rw [List.foldl_cons]
    exact ih _ (mem_batchSetWord_of_ne ws u wbId a.id (docOfWord a) e he
      (h a (List.mem_cons_self a l))) (fun x hx => h x (List.mem_cons_of_mem a hx))

theorem mem_foldl_batchSet (u wbId : String) (l : List Word)
    (ws : List (String × String × String × WordDoc))
    (hnd : (l.map (fun w => w.id)).Nodup) (w : Word) (hw : w ∈ l) :
    (u, wbId, w.id, docOfWord w) ∈
      l.foldl (fun acc (x : Word) => batchSetWord acc u wbId x.id (docOfWord x)) ws := by
  induction l generalizing ws with
  | nil => cases hw
  | cons a l ih =>
    rw [List.foldl_cons]
    rw [List.map_cons, List.nodup_cons] at hnd
    obtain ⟨hna, hnd2⟩ := hnd
    rcases List.mem_cons.1 hw with rfl | hw2
    · apply mem_foldl_batchSet_preserve
      · exact mem_batchSetWord_self ws u wbId w.id (docOfWord w)
      · intro x hx heq
        have heq' : w.id = x.id := heq
        exact hna (by rw [heq']; exact List.mem_map.2 ⟨x, hx, rfl⟩)
    · exact ih _ hnd2 hw2

/-- Claim C3 (confirmed): `bulkImportWords` builds exactly one record per
input item, with one client-side id each (the generated ids are pairwise
distinct), reads the clock exactly once and stamps every record with that
single shared `createdAt` (and `reviewDate = null`, `studyCount = 0`,
`wordbookId` set), writes all records to the store as one batch, and a
subsequent `getWordsByWordbookId` returns a list containing all of them. -/
theorem claim3_bulkImportWords (s : DB) (u wbId : String) (data : List WordInput) :
    (bulkImportWords s u wbId data).1.length = data.length ∧
    (∀ w ∈ (bulkImportWords s u wbId data).1,
      w.createdAt = s.trace s.tick ∧ w.wordbookId = wbId ∧
      w.reviewDate = some none ∧ w.studyCount = some 0) ∧
    (bulkImportWords s u wbId data).2.tick = s.tick + 1 ∧
    (bulkImportWords s u wbId data).2.nextId = s.nextId + data.length ∧
    ((bulkImportWords s u wbId data).1.map (fun w => w.id)).Nodup ∧
    (∀ w ∈ (bulkImportWords s u wbId data).1,
      (u, wbId, w.id, docOfWord w) ∈ (bulkImportWords s u wbId data).2.words) ∧
    (∀ w ∈ (bulkImportWords s u wbId data).1,
      w ∈ (getWordsByWordbookId (bulkImportWords s u wbId data).2 u wbId).1) := by
  have hfst : (bulkImportWords s u wbId data).1
      = bulkBuild wbId (s.trace s.tick) data s.nextId := rfl
  refine ⟨?_, ?_, ?_, ?_, ?_, ?_, ?_⟩
  · rw [hfst, length_bulkBuild]
  · intro w hw
    rw [hfst] at hw
    exact mem_bulkBuild _ _ _ _ w hw
  · unfold bulkImportWords
    cases hc : cacheGet s.wordCache (makeCacheKey u wbId) <;> simp [hc, now]
  · unfold bulkImportWords
    cases hc : cacheGet s.wordCache (makeCacheKey u wbId) <;> simp [hc, now]
  · rw [hfst]
    exact bulkBuild_ids_nodup wbId (s.trace s.tick) data s.nextId
  · intro w hw
    rw [hfst] at hw
    have hwords : (bulkImportWords s u wbId data).2.words
        = (bulkBuild wbId (s.trace s.tick) data s.nextId).foldl
            (fun acc (x : Word) => batchSetWord acc u wbId x.id (docOfWord x)) s.words := by
      unfold bulkImportWords
      cases hc : cacheGet s.wordCache (makeCacheKey u wbId) <;> simp [hc, now]
    rw [hwords]
    exact mem_foldl_batchSet u wbId _ s.words
      (bulkBuild_ids_nodup wbId (s.trace s.tick) data s.nextId) w hw
  · intro w hw
    rw [hfst] at hw
    cases hc : cacheGet s.wordCache (makeCacheKey u wbId) with
    | some old =>
      have hcache : (bulkImportWords s u wbId data).2.wordCache
          = cacheSet s.wordCache (makeCacheKey u wbId)
              (old ++ bulkBuild wbId (s.trace s.tick) data s.nextId) := by
        unfold bulkImportWords
        simp [hc, now]
      have hres : (getWordsByWordbookId (bulkImportWords s u wbId data).2 u wbId).1
          = old ++ bulkBuild wbId (s.trace s.tick) data s.nextId := by
        simp [getWordsByWordbookId, hcache, cacheGet_cacheSet_self]
      rw [hres]
      exact List.mem_append_right _ hw
    | none =>
      have hcache : (bulkImportWords s u wbId data).2.wordCache
          = cacheSet s.wordCache (makeCacheKey u wbId)
              (bulkBuild wbId (s.trace s.tick) data s.nextId) := by
        unfold bulkImportWords
        simp [hc, now]
      have hres : (getWordsByWordbookId (bulkImportWords s u wbId data).2 u wbId).1
          = bulkBuild wbId (s.trace s.tick) data s.nextId := by
        simp [getWordsByWordbookId, hcache, cacheGet_cacheSet_self]
      rw [hres]
      exact hw

/-! ### Claim C6: trashing is one-directional -/

theorem inv_of_frame {s t : DB} (hwb : t.wordbooks = s.wordbooks)
    (hni : s.nextId ≤ t.nextId) {u i : String} {k : Nat}
    (hk : k < s.nextId) (hts : stillTrashed s u i) :
    k < t.nextId ∧ stillTrashed t u i := by
  refine ⟨lt_of_lt_of_le hk hni, ?_⟩
  intro d hd
  rw [hwb] at hd
  exact hts d hd

theorem getWords_state_frame (s : DB) (u w : String) :
    (getWordsByWordbookId s u w).2.wordbooks = s.wordbooks ∧
    (getWordsByWordbookId s u w).2.nextId = s.nextId := by
  cases hc : cacheGet s.wordCache (makeCacheKey u w) <;>
    simp [getWordsByWordbookId, hc]

theorem createWord_state_frame (s : DB) (u w : String) (d : WordInput) :
    (createWord s u w d).2.wordbooks = s.wordbooks ∧
    (createWord s u w d).2.nextId = s.nextId + 1 := by
  cases hc : cacheGet s.wordCache (makeCacheKey u w) <;>
    simp [createWord, now, freshId, hc]

theorem updateWord_state_frame (s : DB) (u w i : String) (p : PartialWord) :
    ((updateWord s u w i p).getD s).wordbooks = s.wordbooks ∧
    ((updateWord s u w i p).getD s).nextId = s.nextId := by
  by_cases hex : existsWordDoc s u w i = true
  · cases hc : cacheGet s.wordCache (makeCacheKey u w) <;>
      simp [updateWord, hex, hc]
  · simp [updateWord, hex]

theorem deleteWord_state_frame (s : DB) (u w i : String) :
    (deleteWord s u w i).wordbooks = s.wordbooks ∧
    (deleteWord s u w i).nextId = s.nextId := by
  cases hc : cacheGet s.wordCache (makeCacheKey u w) <;> simp [deleteWord, hc]

theorem bulkImportWords_state_frame (s : DB) (u w : String) (data : List WordInput) :
    (bulkImportWords s u w data).2.wordbooks = s.wordbooks ∧
    (bulkImportWords s u w data).2.nextId = s.nextId + data.length := by
  cases hc : cacheGet s.wordCache (makeCacheKey u w) <;>
    simp [bulkImportWords, now, hc]

theorem resetWordsProgress_state_frame (s : DB) (u w : String) (ids : List String) :
    ((resetWordsProgress s u w ids).getD s).wordbooks = s.wordbooks ∧
    ((resetWordsProgress s u w ids).getD s).nextId = s.nextId := by
  by_cases hall : (ids.all (fun i => existsWordDoc s u w i)) = true
  · cases hc : cacheGet s.wordCache (makeCacheKey u w) <;>
      simp [resetWordsProgress, hall, hc]
  · simp [resetWordsProgress, hall]

theorem bulkDeleteWords_state_frame (s : DB) (u w : String) (ids : List String) :
    (bulkDeleteWords s u w ids).wordbooks = s.wordbooks ∧
    (bulkDeleteWords s u w ids).nextId = s.nextId := by
  cases hc : cacheGet s.wordCache (makeCacheKey u w) <;> simp [bulkDeleteWords, hc]

theorem getPartOfSpeechTags_state_frame (s : DB) (u : String) :
    (getPartOfSpeechTags s u).2.wordbooks = s.wordbooks ∧
    (getPartOfSpeechTags s u).2.nextId = s.nextId := by
  cases hc : cacheGet s.posTagCache u <;> simp [getPartOfSpeechTags, hc]

theorem createPartOfSpeechTag_state_frame (s : DB) (u : String) (d : TagInput) :
    (createPartOfSpeechTag s u d).2.wordbooks = s.wordbooks ∧
    (createPartOfSpeechTag s u d).2.nextId = s.nextId + 1 := by
  cases hc : cacheGet s.posTagCache u <;> simp [createPartOfSpeechTag, freshId, hc]

theorem updatePartOfSpeechTag_state_frame (s : DB) (u t : String) (p : PartialTag) :
    ((updatePartOfSpeechTag s u t p).getD s).wordbooks = s.wordbooks ∧
    ((updatePartOfSpeechTag s u t p).getD s).nextId = s.nextId := by
  by_cases hex : existsTagDoc s u t = true
  · cases hc : cacheGet s.posTagCache u <;> simp [updatePartOfSpeechTag, hex, hc]
  · simp [updatePartOfSpeechTag, hex]

theorem deletePartOfSpeechTag_state_frame (s : DB) (u t : String) :
    (deletePartOfSpeechTag s u t).wordbooks = s.wordbooks ∧
    (deletePartOfSpeechTag s u t).nextId = s.nextId :=
  ⟨rfl, rfl⟩

theorem createWordbook_wordbooks (s : DB) (u n : String) :
    (createWordbook s u n).2.wordbooks = s.wordbooks ++ [(u, genId s.nextId,
      ({ name := n, userId := u, createdAt := s.trace s.tick
         trashed := some false, trashedAt := some none } : WordbookDoc))] ∧
    (createWordbook s u n).2.nextId = s.nextId + 1 :=
  ⟨rfl, rfl⟩

theorem deleteWordbook_inv (s : DB) (u' i' u i : String) (hts : stillTrashed s u i) :
    (deleteWordbook s u' i').nextId = s.nextId ∧
    stillTrashed (deleteWordbook s u' i') u i := by
  refine ⟨rfl, ?_⟩
  intro d hd
  exact hts d (List.mem_of_mem_filter hd)

theorem foldl_deleteWordbook_inv (u' : String) (l : List Wordbook) (s : DB)
    (u i : String) (hts : stillTrashed s u i) :
    (l.foldl (fun st wb => deleteWordbook st u' wb.id) s).nextId = s.nextId ∧
    stillTrashed (l.foldl (fun st wb => deleteWordbook st u' wb.id) s) u i := by
  induction l generalizing s with
  | nil => exact ⟨rfl, hts⟩
  | cons a l ih =>
    rw [List.foldl_cons]
    have h1 := deleteWordbook_inv s u' a.id u i hts
    have h2 := ih (deleteWordbook s u' a.id) h1.2
    exact ⟨h2.1.trans h1.1, h2.2⟩

theorem trashWordbook_inv (s : DB) (u' i' u i : String) (hts : stillTrashed s u i) :
    ((trashWordbook s u' i').getD s).nextId = s.nextId ∧
    stillTrashed ((trashWordbook s u' i').getD s) u i := by
  simp only [trashWordbook, now]
  by_cases hex : existsWordbookDoc { s with tick := s.tick + 1 } u' i' = true
  · rw [if_pos hex]
    refine ⟨rfl, ?_⟩
    intro d hd
    simp only [Option.getD_some] at hd
    rw [List.mem_map] at hd
    obtain ⟨a, ha, hae⟩ := hd
    cases hcond : (a.1 == u' && a.2.1 == i') with
    | true =>
      rw [if_pos hcond] at hae
      have hd2 : ({ a.2.2 with trashed := some true, trashedAt := some (some (s.trace s.tick)) } : WordbookDoc) = d := by
        simpa using congrArg (fun x => x.2.2) hae
      rw [← hd2]
    | false =>
      rw [if_neg (by rw [hcond]; exact Bool.false_ne_true)] at hae
      exact hts d (hae ▸ ha)
  · rw [if_neg hex]
    exact ⟨rfl, hts⟩

theorem updateWordbookName_inv (s : DB) (u' i' n u i : String)
    (hts : stillTrashed s u i) :
    ((updateWordbookName s u' i' n).getD s).nextId = s.nextId ∧
    stillTrashed ((updateWordbookName s u' i' n).getD s) u i := by
  simp only [updateWordbookName]
  by_cases hex : existsWordbookDoc s u' i' = true
  · rw [if_pos hex]
    refine ⟨rfl, ?_⟩
    intro d hd
    simp only [Option.getD_some] at hd
    rw [List.mem_map] at hd
    obtain ⟨a, ha, hae⟩ := hd
    cases hcond : (a.1 == u' && a.2.1 == i') with
    | true =>
      rw [if_pos hcond] at hae
      have h1 : a.1 = u := congrArg (fun x => x.1) hae
      have h2 : a.2.1 = i := by simpa using congrArg (fun x => x.2.1) hae
      have h3 : ({ a.2.2 with name := n } : WordbookDoc) = d := by
        simpa using congrArg (fun x => x.2.2) hae
      have ha2 : (u, i, a.2.2) ∈ s.wordbooks := by
        rw [← h1, ← h2]
        exact ha
      have h4 := hts a.2.2 ha2
      rw [← h3]
      simpa using h4
    | false =>
      rw [if_neg (by rw [hcond]; exact Bool.false_ne_true)] at hae
      exact hts d (hae ▸ ha)
  · rw [if_neg hex]
    exact ⟨rfl, hts⟩

theorem applyOp_inv (s : DB) (op : Op) (u i : String) (k : Nat)
    (hik : i = genId k) (hk : k < s.nextId) (hts : stillTrashed s u i) :
    k < (applyOp s op).nextId ∧ stillTrashed (applyOp s op) u i := by
  cases op with
  | getWordbooks u' => exact ⟨hk, hts⟩
  | getTrashedWordbooks u' => exact ⟨hk, hts⟩
  | getWordbook u' i' => exact ⟨hk, hts⟩
  | getWords u' w' =>
    have h := getWords_state_frame s u' w'
    exact inv_of_frame h.1 (le_of_eq h.2.symm) hk hts
  | createWord u' w' d =>
    have h := createWord_state_frame s u' w' d
    exact inv_of_frame h.1 (h.2 ▸ Nat.le_succ s.nextId) hk hts
  | updateWord u' w' i' p =>
    have h := updateWord_state_frame s u' w' i' p
    exact inv_of_frame h.1 (le_of_eq h.2.symm) hk hts
  | deleteWord u' w' i' =>
    have h := deleteWord_state_frame s u' w' i'
    exact inv_of_frame h.1 (le_of_eq h.2.symm) hk hts
  | bulkImport u' w' data =>
    have h := bulkImportWords_state_frame s u' w' data
    exact inv_of_frame h.1 (h.2 ▸ Nat.le_add_right s.nextId data.length) hk hts
  | resetProgress u' w' ids =>
    have h := resetWordsProgress_state_frame s u' w' ids
    exact inv_of_frame h.1 (le_of_eq h.2.symm) hk hts
  | bulkDelete u' w' ids =>
    have h := bulkDeleteWords_state_frame s u' w' ids
    exact inv_of_frame h.1 (le_of_eq h.2.symm) hk hts
  | getTags u' =>
    have h := getPartOfSpeechTags_state_frame s u'
    exact inv_of_frame h.1 (le_of_eq h.2.symm) hk hts
  | createTag u' d =>
    have h := createPartOfSpeechTag_state_frame s u' d
    exact inv_of_frame h.1 (h.2 ▸ Nat.le_succ s.nextId) hk hts
  | updateTag u' t p =>
    have h := updatePartOfSpeechTag_state_frame s u' t p
    exact inv_of_frame h.1 (le_of_eq h.2.symm) hk hts
  | deleteTag u' t =>
    have h := deletePartOfSpeechTag_state_frame s u' t
    exact inv_of_frame h.1 (le_of_eq h.2.symm) hk hts
  | deleteWordbook u' i' =>
    have h := deleteWordbook_inv s u' i' u i hts
    exact ⟨h.1 ▸ hk, h.2⟩
  | trashWordbook u' i' =>
    have h := trashWordbook_inv s u' i' u i hts
    exact ⟨h.1 ▸ hk, h.2⟩
  | updateWordbookName u' i' n =>
    have h := updateWordbookName_inv s u' i' n u i hts
    exact ⟨h.1 ▸ hk, h.2⟩
  | clearTrashed u' =>
    have h := foldl_deleteWordbook_inv u' (getTrashedWordbooksByUserId s u') s u i hts
    exact ⟨h.1 ▸ hk, h.2⟩
  | createWordbook u' n =>
    have h := createWordbook_wordbooks s u' n
    refine ⟨h.2 ▸ Nat.lt_succ_of_lt hk, ?_⟩
    intro d hd
    have hd' : (u, i, d) ∈ (createWordbook s u' n).2.wordbooks := hd
    rw [h.1] at hd'
    rcases List.mem_append.1 hd' with hmem | hmem
    · exact hts d hmem
    · rw [List.mem_singleton] at hmem
      have h2 : i = genId s.nextId := by
        have := congrArg (fun x => x.2.1) hmem
        simpa using this
      rw [hik] at h2
      have := genId_injective h2
      omega

theorem applyOps_inv (s : DB) (ops : List Op) (u i : String) (k : Nat)
    (hik : i = genId k) (hk : k < s.nextId) (hts : stillTrashed s u i) :
    k < (applyOps s ops).nextId ∧ stillTrashed (applyOps s ops) u i := by
  induction ops generalizing s with
  | nil => exact ⟨hk, hts⟩
  | cons op ops ih =>
    have h1 := applyOp_inv s op u i k hik hk hts
    exact ih (applyOp s op) h1.1 h1.2

theorem trashWordbook_establishes (s : DB) (u i : String)
    (hex : existsWordbookDoc s u i = true) :
    (applyOp s (Op.trashWordbook u i)).nextId = s.nextId ∧
    stillTrashed (applyOp s (Op.trashWordbook u i)) u i := by
  simp only [applyOp, trashWordbook, now]
  have hex2 : existsWordbookDoc { s with tick := s.tick + 1 } u i = true := hex
  rw [if_pos hex2]
  refine ⟨rfl, ?_⟩
  intro d hd
  simp only [Option.getD_some] at hd
  rw [List.mem_map] at hd
  obtain ⟨a, ha, hae⟩ := hd
  cases hcond : (a.1 == u && a.2.1 == i) with
  | true =>
    rw [if_pos hcond] at hae
    have hd2 : ({ a.2.2 with trashed := some true, trashedAt := some (some (s.trace s.tick)) } : WordbookDoc) = d := by
      simpa using congrArg (fun x => x.2.2) hae
    rw [← hd2]
  | false =>
    rw [if_neg (by rw [hcond]; exact Bool.false_ne_true)] at hae
    have h1 : a.1 = u := congrArg (fun x => x.1) hae
    have h2 : a.2.1 = i := by simpa using congrArg (fun x => x.2.1) hae
    simp only [h1, h2, beq_self_eq_true, Bool.and_self, Bool.true_eq_false] at hcond

/-- Claim C6 (confirmed, under the side condition that the wordbook's id was
generated by this layer, `i = genId k` with `k` below the generator
counter): `getWordbooksByUserId` returns exactly the user's wordbooks whose
`trashed` flag is not truthy; no operation of the layer turns a trashed
document's flag back off; and once `trashWordbook(user, id)` has completed
(the document exists), the id is excluded from every subsequent
`getWordbooksByUserId` result, across any sequence of layer operations. -/
theorem claim6_trash_one_directional (s : DB) (u i : String) (k : Nat)
    (hik : i = genId k) (hk : k < s.nextId)
    (hex : existsWordbookDoc s u i = true) :
    (∀ (t : DB) (u' : String) (wb : Wordbook),
      wb ∈ getWordbooksByUserId t u' ↔
        ((u', wb.id, wb.toWordbookDoc) ∈ t.wordbooks ∧ truthy wb.trashed = false)) ∧
    (∀ (t : DB) (op : Op) (u' i' : String) (k' : Nat), i' = genId k' → k' < t.nextId →
      stillTrashed t u' i' → stillTrashed (applyOp t op) u' i') ∧
    (∀ ops : List Op, ∀ wb ∈ getWordbooksByUserId
        (applyOps (applyOp s (Op.trashWordbook u i)) ops) u, wb.id ≠ i) := by
  refine ⟨?_, ?_, ?_⟩
  · intro t u' wb
    exact mem_getWordbooksByUserId t u' wb
  · intro t op u' i' k' h1 h2 h3
    exact (applyOp_inv t op u' i' k' h1 h2 h3).2
  · intro ops wb hwb hwbid
    have hest := trashWordbook_establishes s u i hex
    have hinv := applyOps_inv (applyOp s (Op.trashWordbook u i)) ops u i k hik
      (hest.1 ▸ hk) hest.2
    have hmem := (mem_getWordbooksByUserId _ u wb).1 hwb
    have htr := hinv.2 wb.toWordbookDoc (hwbid ▸ hmem.1)
    have hcontra : truthy wb.trashed = true := by
      show truthy wb.toWordbookDoc.trashed = true
      rw [htr]
      rfl
    rw [hmem.2] at hcontra
    cases hcontra

/-- A concrete state for the C6 witness: one layer-generated wordbook. -/
def dbC6 : DB :=
  { emptyDB with
    wordbooks := [("u", genId 0, sampleWbDoc)]
    nextId := 1 }

/-- Witness for C6: the generated-id and existence hypotheses hold at
`dbC6` and the claim theorem applies there. -/
theorem claim6_trash_one_directional_witness :
    (genId 0 = genId 0 ∧ 0 < dbC6.nextId ∧ existsWordbookDoc dbC6 "u" (genId 0) = true) ∧
    (∀ wb ∈ getWordbooksByUserId
        (applyOps (applyOp dbC6 (Op.trashWordbook "u" (genId 0))) []) "u",
      wb.id ≠ genId 0) := by
  refine ⟨⟨rfl, by decide, by decide⟩, ?_⟩
  exact (claim6_trash_one_directional dbC6 "u" (genId 0) 0 rfl (by decide) (by decide)).2.2 []

end VocabDB
